import Mathlib

/-!
# Verification of the gqlgen-contrib OpenCensus instrumentation

Shallow embedding of the repository's two components:

* `gqlopencensus` (tracing interceptor, `tracer.go`): wraps field and
  operation execution in trace spans.
* `gqlopencensus-metrics` (metrics collector, `extension.go` and the
  measurement/view declarations): records counters and latency
  distributions for fields and operations.

Side effects against the OpenCensus backend (span start/end, attribute
attachment, status setting, measurement recording) are modelled as an
explicit list of `Event`s emitted by each interception call, in the
order the Go code performs them (a `defer span.End()` or a deferred
`stats.RecordWithTags` fires on function exit, hence last).

The wrapped "next" continuation is opaque host code; an interceptor is
therefore embedded as a function of the continuation's *result* (for
field interception the `(res, err)` pair is abstracted as a value of an
arbitrary type `α`; for operation interception it is an
`Option Response`, `none` standing for a nil `*graphql.Response`).
Clock reads (`graphql.Now()`) and the timing marks in the operation
context are modelled as integer nanosecond instants, matching Go's
`time.Time`/`time.Duration`; the `float64(d)/float64(time.Millisecond)`
unit conversion is modelled exactly over `Rat`.
-/

/-! ## Measurement declarations (`package metrics`, measurement/view file) -/

/-- The six measurements declared by the metrics package, identified by
their Go variable. Their registered names, descriptions and units are
given by `Measure.name`, `Measure.description`, `Measure.unit` below,
transcribed from the `stats.Int64`/`stats.Float64` declarations. -/
inductive Measure where
  | ServerRequestCount
  | ServerFieldCount
  | ServerErrorCount
  | ServerLatency
  | ServerFieldLatency
  | ServerParsing
deriving DecidableEq, Repr

/-- The registered measurement name of each declaration. -/
def Measure.name : Measure → String
  | .ServerRequestCount => "gql/server/request_count"
  | .ServerFieldCount => "gql/server/field_count"
  | .ServerErrorCount => "gql/server/request_count"
  | .ServerLatency => "gql/server/latency"
  | .ServerFieldLatency => "gql/server/field_latency"
  | .ServerParsing => "gql/server/parsing_validation"

/-- The description string of each measurement declaration. -/
def Measure.description : Measure → String
  | .ServerRequestCount => "Number of GraphQL requests started"
  | .ServerFieldCount => "Number of GraphQL field resolutions, per field and query path"
  | .ServerErrorCount => "Number of GraphQL requests started"
  | .ServerLatency => "Execution latency"
  | .ServerFieldLatency => "Single field execution latency"
  | .ServerParsing => "Parsing & validation latency"

/-- The unit of each measurement declaration (`stats.UnitDimensionless`
is `"1"`, `stats.UnitMilliseconds` is `"ms"` in OpenCensus). -/
def Measure.unit : Measure → String
  | .ServerRequestCount => "1"
  | .ServerFieldCount => "1"
  | .ServerErrorCount => "1"
  | .ServerLatency => "ms"
  | .ServerFieldLatency => "ms"
  | .ServerParsing => "ms"

/-- Tag key `TagHost = tag.MustNewKey("gql.host")`. -/
def TagHost : String := "gql.host"

/-- Tag key `TagOperation = tag.MustNewKey("gql.operation")`. -/
def TagOperation : String := "gql.operation"

/-- Tag key `TagField = tag.MustNewKey("gql.field")`. -/
def TagField : String := "gql.field"

/-- Tag key `TagPath = tag.MustNewKey("gql.path")`. -/
def TagPath : String := "gql.path"

/-! ## Backend events -/

/-- One numeric sample submitted to `stats.RecordWithTags`:
`m.M(v)` in Go. Latency values are exact rationals (milliseconds). -/
structure Sample where
  measure : Measure
  value : Rat
deriving DecidableEq, Repr

/-- One observable side effect against the OpenCensus backend. -/
inductive Event where
  | SpanStart (name : String)
  | SpanAddAttributes (attrs : List (String × String))
  | SpanSetStatus (code : Int) (message : String)
  | SpanEnd
  | RecordWithTags (tags : List (String × String)) (samples : List Sample)
deriving DecidableEq, Repr

/-- Code `trace.StatusCodeUnknown` in OpenCensus (gRPC code 2). -/
def StatusCodeUnknown : Int := 2

def Event.isSpanStart : Event → Bool
  | .SpanStart _ => true
  | _ => false

def Event.isSpanEnd : Event → Bool
  | .SpanEnd => true
  | _ => false

def Event.isRecord : Event → Bool
  | .RecordWithTags _ _ => true
  | _ => false

/-- Does this event record at least one sample of measurement `m`? -/
def Event.recordsMeasure (m : Measure) : Event → Bool
  | .RecordWithTags _ samples => samples.any fun s => s.measure == m
  | _ => false

/-- Constant `time.Millisecond` in nanoseconds (Go `time.Duration` is int64
nanoseconds). -/
def timeMillisecond : Int := 1000000

/-- The quotient `float64(d) / float64(time.Millisecond)` for a duration `d` in
nanoseconds, modelled exactly over the rationals. -/
def durMs (d : Int) : Rat := (d : Rat) / (timeMillisecond : Rat)

/-! ## Host data model (gqlgen execution contexts and responses) -/

/-- A GraphQL error carried by a response. Only the rendered message
matters to this repository (host/library-owned otherwise). -/
structure GQLError where
  Message : String
deriving DecidableEq, Repr

/-- The rendered message of an error list, `resp.Errors.Error()` in Go.
Models the external `gqlerror.List.Error()` (vektah/gqlparser), which
writes each error's message followed by a newline into a buffer; the
repository only relies on the concatenation being empty exactly when
the list is empty. -/
def errorsMessage : List GQLError → String
  | [] => ""
  | e :: es => e.Message ++ "\n" ++ errorsMessage es

/-- A `*graphql.Response` (host-owned): payload plus error list. -/
structure Response where
  Data : String
  Errors : List GQLError
deriving DecidableEq, Repr

/-- The parsed operation, `*ast.OperationDefinition` (host-owned):
its declared `Name` and its `Operation` kind, already stringified
(`string(ctx.Operation.Operation)` — in practice `"query"`,
`"mutation"` or `"subscription"`). -/
structure Operation where
  Name : String
  Operation : String
deriving DecidableEq, Repr

/-- One phase's timing marks, `graphql.TraceTiming` (host-owned),
instants as integer nanoseconds. -/
structure TraceTiming where
  Start : Int
  End : Int
deriving DecidableEq, Repr

/-- The timing record of an operation context, `graphql.Stats`
(host-owned); only the parsing and validation phases are read. -/
structure Stats where
  Parsing : TraceTiming
  Validation : TraceTiming
deriving DecidableEq, Repr

/-- A `*graphql.OperationContext` (host-owned), restricted to the
fields the repository reads. `Operation = none` models a nil
`*ast.OperationDefinition`. -/
structure OperationContext where
  Operation : Option Operation
  OperationName : String
  RawQuery : String
  Stats : Stats
deriving DecidableEq, Repr

/-- The `Field` of a field context, a `graphql.CollectedField`
(host-owned); only its `Name` is read. -/
structure CollectedField where
  Name : String
deriving DecidableEq, Repr

/-- A `*graphql.FieldContext` (host-owned). `pathString` is the
rendered result of the host-computed `fc.Path().String()` (the
dotted/indexed path from the query root), which the repository only
ever consumes as a string. -/
structure FieldContext where
  Field : CollectedField
  IsMethod : Bool
  pathString : String
deriving DecidableEq, Repr

/-! ## Shared operation-naming rule -/

/-- Function `operationName` from `gqlopencensus-metrics/extension.go`,
transcribed statement by statement (`opName` starts as the empty
string; each Go `if` either reassigns it or leaves it). The tracing
package's own copy of this helper is not under `src/`; per the spec's
shared-naming rule both components apply this precedence identically,
so the tracer embedding below reuses this definition. -/
def operationName (ctx : OperationContext) : String :=
  let opName1 : String :=
    match ctx.Operation with
    | some op => op.Name
    | none => ""
  let opName2 : String :=
    match ctx.Operation with
    | some op => if opName1 = "" then op.Operation else opName1
    | none => opName1
  if opName2 = "" then ctx.OperationName else opName2

/-- The spec's §4.3 naming precedence, written from the spec's words
(each step falls through to the next when it yields the empty string,
so that the terminal "otherwise empty string" case is reachable):
(1) the parsed operation's declared name, if non-empty; (2) otherwise
the parsed operation's operation type stringified, if an operation was
parsed; (3) otherwise the raw operation name supplied by the caller;
(4) otherwise the empty string. -/
def operationNameSpec (ctx : OperationContext) : String :=
  let declared : String :=
    match ctx.Operation with
    | some op => op.Name
    | none => ""
  let opType : String :=
    match ctx.Operation with
    | some op => op.Operation
    | none => ""
  if declared ≠ "" then declared
  else if ctx.Operation.isSome ∧ opType ≠ "" then opType
  else if ctx.OperationName ≠ "" then ctx.OperationName
  else ""

/-- Go's `strings.HasPrefix(s, pre)`, modelled as a character-list
test: `pre`'s characters are an initial segment of `s`'s characters
(equivalent to Go's byte-level test on valid UTF-8). -/
def stringStartsWith (s pre : String) : Bool :=
  pre.data.isPrefixOf s.data

/-- Function `fieldTags` from `gqlopencensus-metrics/extension.go`: derive the
(field, path) tag values, collapsing schema introspection
(`strings.HasPrefix(pth, "__schema")`) to a single sentinel pair. -/
def fieldTags (ctx : FieldContext) : String × String :=
  let pth := ctx.pathString
  if stringStartsWith pth "__schema" then
    ("[introspection]", "__schema")
  else
    (ctx.Field.Name, pth)

/-! ## Metrics collector (`package metrics`, `extension.go`) -/

namespace Metrics

/-- The metrics package's `config`, restricted to the fields
`extension.go` reads (`host`, `fieldsEnabled`); the option setters are
quantified away by taking the post-options configuration as input. -/
structure Config where
  host : String
  fieldsEnabled : Bool
deriving DecidableEq, Repr

/-- The `Collector` extension: configuration plus the two tag-building
closures built by `New`. A nil `fieldTagger` func is `none`. -/
structure Collector where
  config : Config
  opTagger : String → List (String × String)
  fieldTagger : Option (String → String → List (String × String))

/-- Constructor `New` from `extension.go`, applied to the configuration resulting
from the functional options (`defaultCollector` plus option
application, which is not under `src/` and is irrelevant here since
every configuration is quantified over): defaults an empty host to
`"-"`, then installs the operation tagger and, only when field metrics
are enabled, the field tagger. -/
def New (cfg : Config) : Collector :=
  let cfg := if cfg.host = "" then { cfg with host := "-" } else cfg
  { config := cfg
    opTagger := fun opName =>
      [(TagHost, cfg.host), (TagOperation, opName)]
    fieldTagger :=
      if cfg.fieldsEnabled then
        some fun fieldName pth =>
          [(TagHost, cfg.host), (TagField, fieldName), (TagPath, pth)]
      else none }

/-- Method `Collector.InterceptField` from `extension.go`. `res` is the
wrapped resolver's result (its `(res, err)` pair abstracted);
`startT`/`endT` are the two `graphql.Now()` reads. The deferred
`stats.RecordWithTags` fires on every exit of the instrumented path.
The result is `none` exactly when the Go code would call a nil
`m.fieldTagger` (a runtime panic); theorems show this is unreachable
for collectors built by `New`. -/
def Collector.InterceptField {α : Type} (m : Collector) (fc : FieldContext)
    (startT endT : Int) (res : α) : Option (α × List Event) :=
  if !m.config.fieldsEnabled then
    some (res, [])
  else if !fc.IsMethod then
    some (res, [])
  else
    match m.fieldTagger with
    | none => none
    | some tagger =>
      some (res,
        [Event.RecordWithTags (tagger (fieldTags fc).1 (fieldTags fc).2)
          [⟨Measure.ServerFieldCount, 1⟩,
           ⟨Measure.ServerFieldLatency, durMs (endT - startT)⟩]])

/-- Method `Collector.InterceptResponse` from `extension.go`. `resp` is the
wrapped handler's result (`none` for a nil response); `endT` is the
`graphql.Now()` read taken right after the wrapped call returns. The
three operation measurements are recorded unconditionally before the
nil check; the error-count measurement is recorded only for a non-nil
response whose rendered error message is non-empty. -/
def Collector.InterceptResponse (m : Collector) (rc : OperationContext)
    (resp : Option Response) (endT : Int) : Option Response × List Event :=
  let opName := operationName rc
  let mainRecord := Event.RecordWithTags (m.opTagger opName)
    [⟨Measure.ServerRequestCount, 1⟩,
     ⟨Measure.ServerParsing, durMs (rc.Stats.Validation.End - rc.Stats.Parsing.Start)⟩,
     ⟨Measure.ServerLatency, durMs (endT - rc.Stats.Validation.End)⟩]
  match resp with
  | none => (none, [mainRecord])
  | some r =>
    if errorsMessage r.Errors ≠ "" then
      (some r,
        [mainRecord,
         Event.RecordWithTags (m.opTagger opName) [⟨Measure.ServerErrorCount, 1⟩]])
    else (some r, [mainRecord])

end Metrics

/-! ## Tracing interceptor (`package gqlopencensus`, `tracer.go`) -/

namespace Gqlopencensus

/-- The tracing package's `config`, restricted to the fields
`tracer.go` reads: the only-methods flag and the two attribute
derivation functions (configuration-supplied, hence arbitrary). -/
structure Config where
  onlyMethods : Bool
  fieldAttributes : FieldContext → List (String × String)
  operationAttributes : OperationContext → List (String × String)

/-- Type `Tracer` embeds its `config` (Go struct embedding, so
`tr.onlyMethods` reads through to the config). -/
structure Tracer where
  config : Config

/-- Go's promoted-field access `tr.onlyMethods`. -/
def Tracer.onlyMethods (tr : Tracer) : Bool := tr.config.onlyMethods

/-- Method `Tracer.InterceptField` from `tracer.go`: skip when configured for
only resolver-backed fields and this one is not; otherwise start a
span named by the field's path, attach the configured field
attributes, run the wrapped resolver and end the span on exit
(`defer span.End()`). -/
def Tracer.InterceptField {α : Type} (tr : Tracer) (fc : FieldContext)
    (res : α) : α × List Event :=
  if tr.onlyMethods && !fc.IsMethod then
    (res, [])
  else
    (res,
      [Event.SpanStart fc.pathString,
       Event.SpanAddAttributes (tr.config.fieldAttributes fc),
       Event.SpanEnd])

/-- Method `Tracer.InterceptResponse` from `tracer.go`: always start a span
named by the resolved operation name, attach operation attributes, run
the wrapped handler; on a nil response return nil (the deferred
`span.End()` still fires); on a response with errors set the span
status to `StatusCodeUnknown` with the concatenated message before the
deferred `span.End()`; return the response unchanged. -/
def Tracer.InterceptResponse (tr : Tracer) (oc : OperationContext)
    (resp : Option Response) : Option Response × List Event :=
  let pre :=
    [Event.SpanStart (operationName oc),
     Event.SpanAddAttributes (tr.config.operationAttributes oc)]
  match resp with
  | none => (none, pre ++ [Event.SpanEnd])
  | some r =>
    if r.Errors.length > 0 then
      (some r,
        pre ++ [Event.SpanSetStatus StatusCodeUnknown (errorsMessage r.Errors), Event.SpanEnd])
    else (some r, pre ++ [Event.SpanEnd])

end Gqlopencensus

/-! ## Shared helper lemmas -/

/-- A non-empty error list renders to a non-empty message (each entry
contributes its message plus a newline). -/
theorem errorsMessage_cons_ne_empty (e : GQLError) (es : List GQLError) :
    errorsMessage (e :: es) ≠ "" := by
  intro h
  have hlen := congrArg String.length h
  simp only [errorsMessage, String.length_append, String.length_empty] at hlen
  have h1 : ("\n" : String).length = 1 := rfl
  rw [h1] at hlen
  omega

/-! ## Claims -/

/-- C1: for every operation context, the resolved operation name used
for span names and metric tags follows the spec's precedence: the
parsed operation's declared name if non-empty; otherwise the parsed
operation's operation type stringified, if an operation was parsed;
otherwise the raw operation name supplied by the caller; otherwise the
empty string. -/
theorem operationName_follows_spec_precedence (ctx : OperationContext) :
    operationName ctx = operationNameSpec ctx := by
  rcases ctx with ⟨op, rawName, rq, st⟩
  cases op with
  | none =>
    by_cases h : rawName = "" <;>
      simp [operationName, operationNameSpec, h]
  | some o =>
    by_cases h1 : o.Name = "" <;> by_cases h2 : o.Operation = "" <;>
      by_cases h3 : rawName = "" <;>
        simp [operationName, operationNameSpec, h1, h2, h3]

/-- C3: every field context whose path string begins with "__schema"
yields the sentinel tags ("[introspection]", "__schema") regardless of
the path suffix; every other field context yields the field's name and
its full path string. -/
theorem fieldTags_collapses_introspection :
    (∀ (nm sfx : String) (m : Bool),
        fieldTags ⟨⟨nm⟩, m, "__schema" ++ sfx⟩ = ("[introspection]", "__schema"))
    ∧ (∀ fc : FieldContext, stringStartsWith fc.pathString "__schema" = false →
        fieldTags fc = (fc.Field.Name, fc.pathString)) := by
  constructor
  · intro nm sfx m
    have hp : stringStartsWith ("__schema" ++ sfx) "__schema" = true := by
      simp only [stringStartsWith, String.data_append]
      rw [List.isPrefixOf_iff_prefix]
      exact List.prefix_append _ _
    simp [fieldTags, hp]
  · intro fc h
    simp [fieldTags, h]

/-- C3 witness: the introspection collapse at the concrete path
"__schema/types", and the pass-through at "query/user". -/
theorem fieldTags_collapses_introspection_witness :
    fieldTags ⟨⟨"__type"⟩, true, "__schema" ++ "/types"⟩ = ("[introspection]", "__schema")
    ∧ (stringStartsWith "query/user" "__schema" = false
        ∧ fieldTags ⟨⟨"user"⟩, true, "query/user"⟩ = ("user", "query/user")) :=
  ⟨fieldTags_collapses_introspection.1 "__type" "/types" true,
   by decide,
   fieldTags_collapses_introspection.2 ⟨⟨"user"⟩, true, "query/user"⟩ (by decide)⟩

/-- C8 counterexample: it is not the case that both the field-count and
the error-count declarations share the request-count measurement name;
the field-count declaration is registered as "gql/server/field_count". -/
theorem fieldCount_does_not_share_requestCount_name :
    ¬ (Measure.ServerFieldCount.name = Measure.ServerRequestCount.name
       ∧ Measure.ServerErrorCount.name = Measure.ServerRequestCount.name) := by
  decide

/-- C8 (amended): only the error-count measurement declaration shares
the measurement name "gql/server/request_count" (and its description)
with the request-count declaration; the field-count declaration has
the distinct name "gql/server/field_count". -/
theorem errorCount_shares_requestCount_name :
    Measure.ServerErrorCount.name = Measure.ServerRequestCount.name
    ∧ Measure.ServerErrorCount.name = "gql/server/request_count"
    ∧ Measure.ServerErrorCount.description = Measure.ServerRequestCount.description
    ∧ Measure.ServerFieldCount.name = "gql/server/field_count"
    ∧ Measure.ServerFieldCount.name ≠ Measure.ServerRequestCount.name :=
  ⟨rfl, rfl, rfl, rfl, by decide⟩

/-! ## Concrete sample inputs (used by the witness theorems) -/

/-- A sample operation context: no parsed operation, raw name "test"
(the spec's end-to-end scenario), with parsing [0,5] and
validation [5,9] timing marks. -/
def sampleOC : OperationContext :=
  ⟨none, "test", "query\x7b\x7d", ⟨⟨0, 5⟩, ⟨5, 9⟩⟩⟩

/-- A sample resolver-method-backed field context. -/
def sampleFC : FieldContext := ⟨⟨"user"⟩, true, "query/user"⟩

/-- A sample property-backed (non-method) field context. -/
def sampleFCProp : FieldContext := ⟨⟨"name"⟩, false, "query/name"⟩

/-- A sample tracer configured with only-methods mode on and empty
attribute derivations. -/
def sampleTracer : Gqlopencensus.Tracer :=
  ⟨⟨true, fun _ => [], fun _ => []⟩⟩

/-- A sample metrics configuration with field metrics enabled. -/
def sampleConfig : Metrics.Config := ⟨"myhost", true⟩

/-- A sample metrics configuration with empty host and field metrics
disabled. -/
def sampleConfigOff : Metrics.Config := ⟨"", false⟩

/-- A sample response carrying one error. -/
def sampleErrResponse : Response := ⟨"null", [⟨"boom"⟩]⟩


/-- C2: per interception call, the span lifecycle (one start, then one
end, the end last) and the measurement recording each occur exactly
once on every exit path: for the tracer's operation interception over
every wrapped outcome (nil response, response with errors, clean
response); for the metrics collector's operation interception over
every wrapped outcome; and for the metrics collector's field
interception on its instrumented path over every wrapped result. -/
theorem interception_effects_exactly_once
    (tr : Gqlopencensus.Tracer) (oc : OperationContext) (resp : Option Response)
    (c : Metrics.Config) (fc : FieldContext) (startT endT : Int)
    {α : Type} (res : α)
    (hfe : c.fieldsEnabled = true) (him : fc.IsMethod = true) :
    ((tr.InterceptResponse oc resp).2.countP Event.isSpanStart = 1
      ∧ (tr.InterceptResponse oc resp).2.countP Event.isSpanEnd = 1
      ∧ (tr.InterceptResponse oc resp).2.head? = some (Event.SpanStart (operationName oc))
      ∧ (tr.InterceptResponse oc resp).2.getLast? = some Event.SpanEnd)
    ∧ ((Metrics.New c).InterceptResponse oc resp endT).2.countP
        (Event.recordsMeasure Measure.ServerRequestCount) = 1
    ∧ (((Metrics.New c).InterceptField fc startT endT res).map
        fun pr => pr.2.countP Event.isRecord) = some 1 := by
  refine ⟨?_, ?_, ?_⟩
  · cases resp with
    | none =>
      simp [Gqlopencensus.Tracer.InterceptResponse, List.countP_cons,
        Event.isSpanStart, Event.isSpanEnd]
    | some r =>
      by_cases h : r.Errors.length > 0 <;>
        simp [Gqlopencensus.Tracer.InterceptResponse, h, List.countP_cons,
          Event.isSpanStart, Event.isSpanEnd]
  · by_cases hh : c.host = "" <;>
      cases resp with
      | none =>
        simp [Metrics.New, Metrics.Collector.InterceptResponse, hh,
          List.countP_cons, Event.recordsMeasure]
      | some r =>
        by_cases h : errorsMessage r.Errors ≠ "" <;>
          simp [Metrics.New, Metrics.Collector.InterceptResponse, hh, h,
            List.countP_cons, Event.recordsMeasure]
  · by_cases hh : c.host = "" <;>
      simp [Metrics.New, Metrics.Collector.InterceptField, hh, hfe, him,
        List.countP_cons, Event.isRecord]

/-- C2 witness: the exactly-once guarantees instantiated at the sample
tracer, operation context, configuration and method-backed field
context, with a nil wrapped response and wrapped field result `0`. -/
theorem interception_effects_exactly_once_witness :
    sampleConfig.fieldsEnabled = true ∧ sampleFC.IsMethod = true ∧
    (((sampleTracer.InterceptResponse sampleOC none).2.countP Event.isSpanStart = 1
        ∧ (sampleTracer.InterceptResponse sampleOC none).2.countP Event.isSpanEnd = 1
        ∧ (sampleTracer.InterceptResponse sampleOC none).2.head?
            = some (Event.SpanStart (operationName sampleOC))
        ∧ (sampleTracer.InterceptResponse sampleOC none).2.getLast? = some Event.SpanEnd)
      ∧ ((Metrics.New sampleConfig).InterceptResponse sampleOC none 12).2.countP
          (Event.recordsMeasure Measure.ServerRequestCount) = 1
      ∧ (((Metrics.New sampleConfig).InterceptField sampleFC 9 12 (0 : Nat)).map
          fun pr => pr.2.countP Event.isRecord) = some 1) :=
  ⟨rfl, rfl,
   interception_effects_exactly_once sampleTracer sampleOC none sampleConfig
     sampleFC 9 12 (0 : Nat) rfl rfl⟩

/-- C4: when only-method mode is on and the field is not
resolver-backed, the tracer creates no span and the metrics collector
records no measurement; the wrapped call's result (its value/error
pair) is returned unchanged by both. -/
theorem onlyMethods_nonMethod_passthrough
    (tr : Gqlopencensus.Tracer) (m : Metrics.Collector) (fc : FieldContext)
    {α : Type} (res : α) (startT endT : Int)
    (hom : tr.onlyMethods = true) (him : fc.IsMethod = false) :
    tr.InterceptField fc res = (res, [])
    ∧ m.InterceptField fc startT endT res = some (res, []) := by
  constructor
  · simp [Gqlopencensus.Tracer.InterceptField, hom, him]
  · by_cases hfe : m.config.fieldsEnabled <;>
      simp [Metrics.Collector.InterceptField, hfe, him]

/-- C4 witness: the pass-through at the sample only-methods tracer and
sample collector on the sample property-backed field context. -/
theorem onlyMethods_nonMethod_passthrough_witness :
    sampleTracer.onlyMethods = true ∧ sampleFCProp.IsMethod = false ∧
    (sampleTracer.InterceptField sampleFCProp (7 : Nat) = ((7 : Nat), [])
      ∧ (Metrics.New sampleConfig).InterceptField sampleFCProp 9 12 (7 : Nat)
          = some ((7 : Nat), [])) :=
  ⟨rfl, rfl,
   onlyMethods_nonMethod_passthrough sampleTracer (Metrics.New sampleConfig)
     sampleFCProp (7 : Nat) 9 12 rfl rfl⟩

/-- C5: for a collector built by `New`, an operation interception whose
response carries one or more errors records exactly one error-count
measurement, tagged by host and the operation's resolved name, after
(in addition to) the three unconditional operation measurements. -/
theorem error_response_records_one_error_count
    (c : Metrics.Config) (oc : OperationContext) (r : Response) (endT : Int)
    (herr : r.Errors ≠ []) :
    (Metrics.New c).InterceptResponse oc (some r) endT =
      (some r,
       [Event.RecordWithTags
          [(TagHost, (Metrics.New c).config.host), (TagOperation, operationName oc)]
          [⟨Measure.ServerRequestCount, 1⟩,
           ⟨Measure.ServerParsing, durMs (oc.Stats.Validation.End - oc.Stats.Parsing.Start)⟩,
           ⟨Measure.ServerLatency, durMs (endT - oc.Stats.Validation.End)⟩],
        Event.RecordWithTags
          [(TagHost, (Metrics.New c).config.host), (TagOperation, operationName oc)]
          [⟨Measure.ServerErrorCount, 1⟩]])
    ∧ ((Metrics.New c).InterceptResponse oc (some r) endT).2.countP
        (Event.recordsMeasure Measure.ServerErrorCount) = 1 := by
  have hmsg : errorsMessage r.Errors ≠ "" := by
    cases hE : r.Errors with
    | nil => exact absurd hE herr
    | cons e es => exact errorsMessage_cons_ne_empty e es
  by_cases hh : c.host = "" <;>
    refine ⟨?_, ?_⟩ <;>
      simp [Metrics.New, Metrics.Collector.InterceptResponse, hh, hmsg,
        List.countP_cons, Event.recordsMeasure]

/-- C5 witness: the error-count recording at the sample configuration,
operation context and one-error response. -/
theorem error_response_records_one_error_count_witness :
    sampleErrResponse.Errors ≠ [] ∧
    ((Metrics.New sampleConfig).InterceptResponse sampleOC (some sampleErrResponse) 12 =
      (some sampleErrResponse,
       [Event.RecordWithTags
          [(TagHost, (Metrics.New sampleConfig).config.host), (TagOperation, operationName sampleOC)]
          [⟨Measure.ServerRequestCount, 1⟩,
           ⟨Measure.ServerParsing, durMs (sampleOC.Stats.Validation.End - sampleOC.Stats.Parsing.Start)⟩,
           ⟨Measure.ServerLatency, durMs (12 - sampleOC.Stats.Validation.End)⟩],
        Event.RecordWithTags
          [(TagHost, (Metrics.New sampleConfig).config.host), (TagOperation, operationName sampleOC)]
          [⟨Measure.ServerErrorCount, 1⟩]])
    ∧ ((Metrics.New sampleConfig).InterceptResponse sampleOC (some sampleErrResponse) 12).2.countP
        (Event.recordsMeasure Measure.ServerErrorCount) = 1) :=
  ⟨by decide,
   error_response_records_one_error_count sampleConfig sampleOC sampleErrResponse 12 (by decide)⟩

/-- C6: for a nil wrapped response, the tracer returns nil having
emitted exactly its span start, attribute attachment and span end (no
status setting); the metrics collector returns nil having emitted
exactly the one unconditional record of the three operation
measurements (request count = 1, parse/validate latency, execution
latency) taken before the nil check, and no error-count measurement. -/
theorem nil_response_no_postprocessing
    (tr : Gqlopencensus.Tracer) (m : Metrics.Collector)
    (oc : OperationContext) (endT : Int) :
    tr.InterceptResponse oc none =
      (none,
       [Event.SpanStart (operationName oc),
        Event.SpanAddAttributes (tr.config.operationAttributes oc),
        Event.SpanEnd])
    ∧ m.InterceptResponse oc none endT =
      (none,
       [Event.RecordWithTags (m.opTagger (operationName oc))
          [⟨Measure.ServerRequestCount, 1⟩,
           ⟨Measure.ServerParsing, durMs (oc.Stats.Validation.End - oc.Stats.Parsing.Start)⟩,
           ⟨Measure.ServerLatency, durMs (endT - oc.Stats.Validation.End)⟩]])
    ∧ (m.InterceptResponse oc none endT).2.countP
        (Event.recordsMeasure Measure.ServerErrorCount) = 0 :=
  ⟨rfl, rfl, rfl⟩

/-- C7: for a non-nil response carrying one or more errors, the tracer
sets the span status to the unknown error code with the concatenated
error message, strictly before the span end event, and returns the
response unchanged. -/
theorem tracer_error_status_before_span_end
    (tr : Gqlopencensus.Tracer) (oc : OperationContext) (r : Response)
    (herr : r.Errors ≠ []) :
    tr.InterceptResponse oc (some r) =
      (some r,
       [Event.SpanStart (operationName oc),
        Event.SpanAddAttributes (tr.config.operationAttributes oc),
        Event.SpanSetStatus StatusCodeUnknown (errorsMessage r.Errors),
        Event.SpanEnd]) := by
  have hl : r.Errors.length > 0 := List.length_pos.mpr herr
  simp [Gqlopencensus.Tracer.InterceptResponse, hl]

/-- C7 witness: the error status event at the sample tracer, operation
context and one-error response. -/
theorem tracer_error_status_before_span_end_witness :
    sampleErrResponse.Errors ≠ [] ∧
    sampleTracer.InterceptResponse sampleOC (some sampleErrResponse) =
      (some sampleErrResponse,
       [Event.SpanStart (operationName sampleOC),
        Event.SpanAddAttributes (sampleTracer.config.operationAttributes sampleOC),
        Event.SpanSetStatus StatusCodeUnknown (errorsMessage sampleErrResponse.Errors),
        Event.SpanEnd]) :=
  ⟨by decide,
   tracer_error_status_before_span_end sampleTracer sampleOC sampleErrResponse (by decide)⟩

/-- C9: for every collector built by `New`, disabling field metrics
leaves the field tagger nil, yet `InterceptField` never calls a nil
tagging function: the fields-enabled check passes through before the
tagger can be reached, so the nil-call (crash) branch — `none` in this
embedding — is unreachable. -/
theorem new_collector_never_calls_nil_fieldTagger
    (c : Metrics.Config) {α : Type} (res : α) (fc : FieldContext)
    (startT endT : Int) :
    (c.fieldsEnabled = false → (Metrics.New c).fieldTagger = none)
    ∧ (Metrics.New c).InterceptField fc startT endT res ≠ none := by
  by_cases hh : c.host = "" <;> by_cases hfe : c.fieldsEnabled <;>
    by_cases him : fc.IsMethod <;>
      simp [Metrics.New, Metrics.Collector.InterceptField, hh, hfe, him]

/-- C9 witness: at the fields-disabled sample configuration, the field
tagger is nil and field interception still succeeds (pass-through). -/
theorem new_collector_never_calls_nil_fieldTagger_witness :
    (sampleConfigOff.fieldsEnabled = false → (Metrics.New sampleConfigOff).fieldTagger = none)
    ∧ (Metrics.New sampleConfigOff).InterceptField sampleFC 9 12 (0 : Nat) ≠ none :=
  new_collector_never_calls_nil_fieldTagger sampleConfigOff (0 : Nat) sampleFC 9 12

/-- C10: for every collector built by `New` and all input strings, the
operation tagger returns exactly the two mutators (host, operation) in
that order; when field metrics are enabled the field tagger returns
exactly the three mutators (host, field, path) in that order; and the
host tag value is never the empty string. -/
theorem new_collector_tagger_shape
    (c : Metrics.Config) (s f p : String) :
    (Metrics.New c).opTagger s =
        [(TagHost, (Metrics.New c).config.host), (TagOperation, s)]
    ∧ (c.fieldsEnabled = true →
        ((Metrics.New c).fieldTagger.map fun t => t f p) =
          some [(TagHost, (Metrics.New c).config.host), (TagField, f), (TagPath, p)])
    ∧ (Metrics.New c).config.host ≠ "" := by
  by_cases hh : c.host = "" <;> by_cases hfe : c.fieldsEnabled <;>
    simp [Metrics.New, hh, hfe]

/-- C10 witness: the tagger shapes at the sample configuration and
concrete operation/field/path strings. -/
theorem new_collector_tagger_shape_witness :
    (Metrics.New sampleConfig).opTagger "test" =
        [(TagHost, (Metrics.New sampleConfig).config.host), (TagOperation, "test")]
    ∧ (sampleConfig.fieldsEnabled = true →
        (((Metrics.New sampleConfig).fieldTagger.map fun t => t "user" "query/user")) =
          some [(TagHost, (Metrics.New sampleConfig).config.host),
                (TagField, "user"), (TagPath, "query/user")])
    ∧ (Metrics.New sampleConfig).config.host ≠ "" :=
  new_collector_tagger_shape sampleConfig "test" "user" "query/user"
